import Mathlib

/-!
Shallow embedding of the `virtual-table` crate (src/src/lib.rs and
src/src/error.rs) and proofs about its table mutation engine.

Modelling conventions:
* `Uuid` primary keys are modelled as `Nat` (only equality of keys matters).
* Rust `Vec<Cell>` is a `List Cell`; `Vec::insert` is `listInsertAt`
  (shift-inserting; indices beyond the length do not occur at the call
  sites reasoned about below), `Vec::remove` is `listEraseAt`.
* `LinkedHashMap<String, Column>` is an insertion-ordered `List Column`
  looked up by the `identifier` field (the real map has unique keys, which
  appears below as `Nodup` hypotheses on the identifier list).
* `HashMap<PrimaryKey, Index>` and `HashMap<String, Option<Cell>>` are
  association lists; `HashMap` key uniqueness likewise appears as `Nodup`
  hypotheses where a proof needs it.
* Mutating methods returning `Result<(), Vec<E>>` are modelled as functions
  returning the new state paired with the collected error list; an empty
  error list is the `Ok(())` outcome.
-/

namespace VirtualTable

/-- `DataType` from src/src/lib.rs. -/
inductive DataType where
  | integer
  | string
  | uuid
deriving DecidableEq, Repr

/-- `TableValue` from src/src/lib.rs; `Uuid` payloads are modelled as `Nat`. -/
inductive TableValue where
  | null
  | integer (i : Int)
  | string (s : String)
  | uuid (u : Nat)
deriving DecidableEq, Repr

/-- `PrimaryKey` (a `Uuid`) modelled as `Nat`. -/
abbrev PrimaryKey := Nat

/-- `Cell` from src/src/lib.rs. -/
structure Cell where
  data_type : DataType
  inner : TableValue
deriving DecidableEq, Repr

/-- `VirtualTableError` from src/src/error.rs. -/
inductive VirtualTableError where
  | InvalidRowIndex (index : Nat)
  | InvalidDataType (column : String) (required provided : DataType)
  | DuplicateColumnInRow (column : String)
  | DuplicatePrimaryKey (key : PrimaryKey)
  | UnknownColumn (column : String)
  | UnknownPrimaryKey (key : PrimaryKey)
  | InvalidNullValue (column : String)
deriving DecidableEq, Repr

/-- `Vec::insert`: insert at an index, shifting later elements right. -/
def listInsertAt {α : Type} : List α → Nat → α → List α
  | l, 0, x => x :: l
  | [], _ + 1, _ => []
  | y :: l, n + 1, x => y :: listInsertAt l n x

/-- `Vec::remove`: remove the element at an index, shifting later elements left. -/
def listEraseAt {α : Type} : List α → Nat → List α
  | [], _ => []
  | _ :: l, 0 => l
  | y :: l, n + 1 => y :: listEraseAt l n

/-- `Column` from src/src/lib.rs. -/
structure Column where
  identifier : String
  data_type : DataType
  is_nullable : Bool
  values : List Cell
deriving DecidableEq, Repr

/-- `Column::create`. -/
def Column.create (identifier : String) (data_type : DataType) (is_nullable : Bool) : Column :=
  { identifier := identifier, data_type := data_type, is_nullable := is_nullable, values := [] }

/-- `Column::set_cell`: type check, then null check, then `Vec::insert`. -/
def Column.set_cell (c : Column) (index : Nat) (cell : Cell) :
    Except VirtualTableError Column :=
  if c.data_type ≠ cell.data_type then
    Except.error (VirtualTableError.InvalidDataType c.identifier c.data_type cell.data_type)
  else if c.is_nullable = false ∧ cell.inner = TableValue.null then
    Except.error (VirtualTableError.InvalidNullValue c.identifier)
  else
    Except.ok { c with values := listInsertAt c.values index cell }

/-- `Column::destroy_cell`: bounds check, then `Vec::remove`. -/
def Column.destroy_cell (c : Column) (index : Nat) :
    Except VirtualTableError (Cell × Column) :=
  if h : index < c.values.length then
    Except.ok (c.values.get ⟨index, h⟩, { c with values := listEraseAt c.values index })
  else
    Except.error (VirtualTableError.InvalidRowIndex index)

/-- `Column::value_at`. -/
def Column.value_at (c : Column) (index : Nat) : Option TableValue :=
  (c.values.get? index).map (fun cell => cell.inner)

/-- `ColumnDefinition` from src/src/lib.rs. -/
structure ColumnDefinition where
  identifier : String
  data_type : DataType
  is_nullable : Bool
deriving DecidableEq, Repr

/-- `Table` from src/src/lib.rs: ordered columns plus the primary-key index. -/
structure Table where
  identifier : String
  columns : List Column
  keys : List (PrimaryKey × Nat)
deriving DecidableEq, Repr

/-- First column (`LinkedHashMap` is keyed by identifier; this is the map lookup). -/
def lookupColumn : List Column → String → Option Column
  | [], _ => none
  | c :: cs, ident => if c.identifier = ident then some c else lookupColumn cs ident

/-- Replace the column stored under an identifier (the map's `get_mut` write-back). -/
def updateColumn : List Column → String → Column → List Column
  | [], _, _ => []
  | c :: cs, ident, newCol =>
    if c.identifier = ident then newCol :: cs else c :: updateColumn cs ident newCol

/-- `HashMap::get` on the key index. -/
def keysGet : List (PrimaryKey × Nat) → PrimaryKey → Option Nat
  | [], _ => none
  | (k, i) :: ks, key => if k = key then some i else keysGet ks key

/-- `HashMap::contains_key` on the key index. -/
def keysContains (ks : List (PrimaryKey × Nat)) (key : PrimaryKey) : Bool :=
  (keysGet ks key).isSome

/-- `HashMap::remove` on the key index. -/
def keysRemove : List (PrimaryKey × Nat) → PrimaryKey → List (PrimaryKey × Nat)
  | [], _ => []
  | (k, i) :: ks, key => if k = key then keysRemove ks key else (k, i) :: keysRemove ks key

/-- `Table::create`, via `create_columns_from_definition`: the synthetic
non-nullable `"ID"` column of type `Uuid` is prepended to the definitions. -/
def Table.create (identifier : String) (definitions : List ColumnDefinition) : Table :=
  { identifier := identifier,
    columns :=
      (ColumnDefinition.mk "ID" DataType.uuid false :: definitions).map
        (fun d => Column.create d.identifier d.data_type d.is_nullable),
    keys := [] }

/-- `Row` from src/src/lib.rs: `HashMap<String, Option<Cell>>` plus the key. -/
structure Row where
  primary_key : PrimaryKey
  cells : List (String × Option Cell)
deriving DecidableEq, Repr

/-- `Row::create`: every declared column gets an entry; `"ID"` is pre-populated
with the key, all other columns are unset (`none`). -/
def Row.create (t : Table) (primary_key : PrimaryKey) : Row :=
  { primary_key := primary_key,
    cells := t.columns.map (fun col =>
      (col.identifier,
        if col.identifier = "ID" then
          some { data_type := col.data_type, inner := TableValue.uuid primary_key }
        else none)) }

/-- `HashMap::insert` on a row's cell map: replace an existing entry or add one. -/
def assocInsert : List (String × Option Cell) → String → Option Cell →
    List (String × Option Cell)
  | [], ident, v => [(ident, v)]
  | (k, w) :: rest, ident, v =>
    if k = ident then (ident, v) :: rest else (k, w) :: assocInsert rest ident v

/-- `HashMap::get` on a row's cell map. -/
def lookupAssoc : List (String × Option Cell) → String → Option (Option Cell)
  | [], _ => none
  | (k, v) :: rest, ident => if k = ident then some v else lookupAssoc rest ident

/-- `Row::set_cell`. -/
def Row.set_cell (r : Row) (column_identifier : String) (cell : Cell) : Row :=
  { r with cells := assocInsert r.cells column_identifier (some cell) }

/-- The cell actually handed to `Column::set_cell` by `Table::create_row`:
a `None` entry is substituted by a `Null` cell of the column's declared type. -/
def cellOrNull (col : Column) (oc : Option Cell) : Cell :=
  match oc with
  | some c => c
  | none => { data_type := col.data_type, inner := TableValue.null }

/-- One iteration of the per-entry loop in `Table::create_row`. -/
def createRowStep (newIndex : Nat) :
    List Column × List VirtualTableError → String × Option Cell →
    List Column × List VirtualTableError
  | (cols, errs), (ident, oc) =>
    match lookupColumn cols ident with
    | none => (cols, errs ++ [VirtualTableError.UnknownColumn ident])
    | some col =>
      match col.set_cell newIndex (cellOrNull col oc) with
      | Except.error e => (cols, errs ++ [e])
      | Except.ok col' => (updateColumn cols ident col', errs)

/-- The `destroy_cell` call made by `Table::rollback_at_index` on each column;
the `Result` is discarded, so an out-of-bounds index leaves the column as is. -/
def destroyForRollback (index : Nat) (col : Column) : Column :=
  match col.destroy_cell index with
  | Except.ok (_, col') => col'
  | Except.error _ => col

/-- `Table::rollback_at_index`. -/
def Table.rollback_at_index (t : Table) (key : PrimaryKey) (index : Nat) : Table :=
  { t with
    columns := t.columns.map (destroyForRollback index),
    keys := keysRemove t.keys key }

/-- The commit-or-rollback tail of `Table::create_row` (the key was already
reserved at `newIndex` before the cells were written). -/
def createRowFinish (t : Table) (pk : PrimaryKey) (newIndex : Nat)
    (res : List Column × List VirtualTableError) : Table × List VirtualTableError :=
  if res.2 = [] then
    ({ t with columns := res.1, keys := t.keys ++ [(pk, newIndex)] }, [])
  else
    (Table.rollback_at_index
      { t with columns := res.1, keys := t.keys ++ [(pk, newIndex)] } pk newIndex, res.2)

/-- `Table::create_row`. -/
def Table.create_row (t : Table) (row : Row) : Table × List VirtualTableError :=
  if keysContains t.keys row.primary_key then
    (t, [VirtualTableError.DuplicatePrimaryKey row.primary_key])
  else
    createRowFinish t row.primary_key t.keys.length
      (row.cells.foldl (createRowStep t.keys.length) (t.columns, []))

/-- One iteration of the per-entry loop in `Table::update_row`:
`None` entries are skipped (partial update). -/
def updateRowStep (rowIndex : Nat) :
    List Column × List VirtualTableError → String × Option Cell →
    List Column × List VirtualTableError
  | (cols, errs), (_, none) => (cols, errs)
  | (cols, errs), (ident, some cell) =>
    match lookupColumn cols ident with
    | none => (cols, errs ++ [VirtualTableError.UnknownColumn ident])
    | some col =>
      match col.set_cell rowIndex cell with
      | Except.error e => (cols, errs ++ [e])
      | Except.ok col' => (updateColumn cols ident col', errs)

/-- The commit-or-rollback tail of `Table::update_row`. -/
def updateRowFinish (t : Table) (pk : PrimaryKey) (rowIndex : Nat)
    (res : List Column × List VirtualTableError) : Table × List VirtualTableError :=
  if res.2 = [] then
    ({ t with columns := res.1 }, [])
  else
    (Table.rollback_at_index { t with columns := res.1 } pk rowIndex, res.2)

/-- `Table::update_row`. -/
def Table.update_row (t : Table) (update_row : Row) : Table × List VirtualTableError :=
  match keysGet t.keys update_row.primary_key with
  | none => (t, [VirtualTableError.UnknownPrimaryKey update_row.primary_key])
  | some rowIndex =>
    updateRowFinish t update_row.primary_key rowIndex
      (update_row.cells.foldl (updateRowStep rowIndex) (t.columns, []))

/-- `ColumnSpecification` from the query module (referenced by src/src/test.rs). -/
inductive ColumnSpecification where
  | All : ColumnSpecification
  | Some (names : List String) : ColumnSpecification
deriving DecidableEq, Repr

/-- The logical cell read back from a column at a row position. -/
def reconstructCell (col : Column) (index : Nat) : Option Cell :=
  (col.value_at index).map (fun v => { data_type := col.data_type, inner := v })

/-- Modelled from the spec: `Table::find_row` is part of this repository but
absent from src/ (only src/src/test.rs and the `query` module caller name it).
Per the spec it returns the logical row at the key's position filtered by the
projection, failing with `UnknownPrimaryKey` when the key is absent and with
`UnknownColumn` when a projected subset names a missing column; the row view is
reconstructed by reading `value_at(position)` from each selected column, with
the `"ID"` cell pre-populated as in `Row::create`. -/
def Table.find_row (t : Table) (key : PrimaryKey) (projection : ColumnSpecification) :
    Except VirtualTableError Row :=
  match keysGet t.keys key with
  | none => Except.error (VirtualTableError.UnknownPrimaryKey key)
  | some index =>
    match projection with
    | ColumnSpecification.All =>
      Except.ok
        { primary_key := key,
          cells := t.columns.map (fun col => (col.identifier, reconstructCell col index)) }
    | ColumnSpecification.Some names =>
      match names.find? (fun n => (lookupColumn t.columns n).isNone) with
      | some missing => Except.error (VirtualTableError.UnknownColumn missing)
      | none =>
        Except.ok
          { primary_key := key,
            cells := t.columns.map (fun col =>
              (col.identifier,
                if names.contains col.identifier then reconstructCell col index
                else if col.identifier = "ID" then reconstructCell col index
                else none)) }

/-- A row built the only way clients can: `Row::create` followed by a sequence
of `Row::set_cell` calls. -/
def buildRow (t : Table) (pk : PrimaryKey) (sets : List (String × Cell)) : Row :=
  sets.foldl (fun r s => r.set_cell s.1 s.2) (Row.create t pk)

/-- The demo schema used by the repository's tests:
`first_name String!, last_name String!, age Integer?`. -/
def demoTable : Table :=
  Table.create "user"
    [ColumnDefinition.mk "first_name" DataType.string false,
     ColumnDefinition.mk "last_name" DataType.string false,
     ColumnDefinition.mk "age" DataType.integer true]

/-- The committed demo row: key 1, first/last names set, age 69. -/
def demoRow : Row :=
  ((Row.create demoTable 1).set_cell "first_name"
      (Cell.mk DataType.string (TableValue.string "first"))).set_cell "last_name"
      (Cell.mk DataType.string (TableValue.string "last")) |>.set_cell "age"
      (Cell.mk DataType.integer (TableValue.integer 69))

/-- The demo table after successfully committing `demoRow`. -/
def demoTable1 : Table := (demoTable.create_row demoRow).1

/-- A partial update of the committed row: only `first_name` is set. -/
def demoUpdate : Row :=
  (Row.create demoTable1 1).set_cell "first_name"
    (Cell.mk DataType.string (TableValue.string "changed first name"))

/-- The table/error pair returned by that successful partial update. -/
def demoUpdated : Table × List VirtualTableError := demoTable1.update_row demoUpdate

/-- An invalid update of the committed row: an Integer cell aimed at the
String column `first_name`. -/
def demoBadUpdate : Row :=
  (Row.create demoTable1 1).set_cell "first_name"
    (Cell.mk DataType.integer (TableValue.integer 64))

/-- The table/error pair returned by that failed update. -/
def demoBadUpdated : Table × List VirtualTableError := demoTable1.update_row demoBadUpdate

/-- The schema part of a column: everything except the stored cells. Only the
`values` field of a column ever changes after table creation. -/
def colMeta (c : Column) : String × DataType × Bool :=
  (c.identifier, c.data_type, c.is_nullable)

/-- The two error variants that C10 claims never surface from
`create_row`/`update_row`. -/
def forbiddenVariant : VirtualTableError → Bool
  | VirtualTableError.DuplicateColumnInRow _ => true
  | VirtualTableError.InvalidRowIndex _ => true
  | _ => false

/-- Read a value through the table: look the column up by identifier, then
read `value_at` at a row position. -/
def Table.value_of (t : Table) (ident : String) (index : Nat) : Option TableValue :=
  (lookupColumn t.columns ident).bind (fun col => col.value_at index)

/-- The column schema of the demo `age` column (Integer, nullable). -/
def ageColumn : Column := Column.create "age" DataType.integer true

/-- The column schema of the demo `first_name` column (String, non-nullable). -/
def firstNameColumn : Column := Column.create "first_name" DataType.string false

/-- `IntoCell for i64`. -/
def intoCellInt (i : Int) : Cell := Cell.mk DataType.integer (TableValue.integer i)

/-- `IntoCell for String`/`&str`. -/
def intoCellStr (s : String) : Cell := Cell.mk DataType.string (TableValue.string s)

/-- How a column evolves during the cell-writing loop of `create_row`, relative
to its pre-call state `o`: its schema is unchanged, and its cell list is either
untouched or has had exactly one cell inserted at the reserved index `n` — the
latter only once the column's entry has been consumed (its identifier is no
longer in `pending`, the keys of the unprocessed row entries). -/
def tracked (n : Nat) (pending : List String) (o c : Column) : Prop :=
  colMeta c = colMeta o ∧
  (c = o ∨ ((∃ x, c.values = listInsertAt o.values n x) ∧ o.identifier ∉ pending))

/-- Witness input for C4: a create attempt whose `first_name` cell has the
wrong data type. -/
def badCreateRow : Row :=
  (Row.create demoTable 5).set_cell "first_name" (intoCellInt 64)

/-- Witness input for C5/C9: set both non-nullable string columns, leave the
nullable `age` column unset. -/
def demoSets : List (String × Cell) :=
  [("first_name", intoCellStr "first"), ("last_name", intoCellStr "last")]

/-- Witness input for C6: a row-building list that never touches `first_name`. -/
def ageSets : List (String × Cell) := [("age", intoCellInt 42)]

/-- Witness input for C8: a partial update of the committed demo row that sets
only the `age` column. -/
def ageUpdateRow : Row :=
  (Row.create demoTable1 1).set_cell "age" (intoCellInt 42)

/-- C1: the claimed invariant fails on a reachable state. Starting from
`Table::create`, a successful `create_row` followed by a successful partial
`update_row` (only `first_name` set) leaves the columns with lengths
2, 2, 1, 1 — `Column::set_cell` shift-inserts instead of overwriting, so the
updated columns grow while untouched columns keep their old length, and the
columns of the reachable table no longer share a common length. -/
theorem c1_invariant_fails_after_update :
    demoTable1.columns.map (fun c => c.values.length) = [1, 1, 1, 1] ∧
    demoUpdated.2 = [] ∧
    demoUpdated.1.columns.map (fun c => c.values.length) = [2, 2, 1, 1] :=
  ⟨rfl, rfl, rfl⟩

/-- C2: a failed `update_row` does not restore the pre-call state. On a table
with one committed row, updating `first_name` with an Integer cell fails with
`InvalidDataType`, and afterwards the key index is empty and the non-ID
columns have been emptied — `rollback_at_index` deletes the pre-existing row
instead of restoring it. -/
theorem c2_failed_update_deletes_row :
    demoBadUpdated.2 =
      [VirtualTableError.InvalidDataType "first_name" DataType.string DataType.integer] ∧
    demoTable1.keys = [(1, 0)] ∧
    demoBadUpdated.1.keys = [] ∧
    demoTable1.columns.map (fun c => c.values.length) = [1, 1, 1, 1] ∧
    demoBadUpdated.1.columns.map (fun c => c.values.length) = [1, 0, 0, 0] :=
  ⟨rfl, rfl, rfl, rfl, rfl⟩

/-- C3: a successful `update_row` changes column lengths. On a table with one
committed row, the successful partial update of `first_name` grows the
`first_name` column from length 1 to length 2 (and `ID` likewise): the write
is a shift-insert, not an in-place overwrite. -/
theorem c3_successful_update_grows_columns :
    demoUpdated.2 = [] ∧
    (lookupColumn demoTable1.columns "first_name").map (fun c => c.values.length) = some 1 ∧
    (lookupColumn demoUpdated.1.columns "first_name").map (fun c => c.values.length) = some 2 :=
  ⟨rfl, rfl, rfl⟩

/-- C7 counterexample: a `Null` cell whose declared data type differs from the
column's is rejected by `set_cell` even though the column is nullable — the
type check runs before the null check, so the claim "accepted regardless of
the cell's declared data type" is false. -/
theorem c7_counterexample_null_type_mismatch :
    ageColumn.set_cell 0 (Cell.mk DataType.string TableValue.null) =
      Except.error
        (VirtualTableError.InvalidDataType "age" DataType.integer DataType.string) :=
  rfl

/-! ### Basic lemmas about the list and map operations -/

theorem listInsertAt_eq_append {α : Type} (l : List α) (x : α) :
    listInsertAt l l.length x = l ++ [x] := by
  induction l with
  | nil => rfl
  | cons y l ih => simp [listInsertAt, List.length_cons, ih]

theorem listEraseAt_append {α : Type} (l : List α) (x : α) :
    listEraseAt (l ++ [x]) l.length = l := by
  induction l with
  | nil => rfl
  | cons y l ih => simp [listEraseAt, List.length_cons, ih]

theorem get?_append_length {α : Type} (l : List α) (x : α) :
    (l ++ [x]).get? l.length = some x := by
  induction l with
  | nil => rfl
  | cons y l ih => simp [ih]

theorem keysGet_eq_none_of_not_contains {ks : List (PrimaryKey × Nat)} {k : PrimaryKey}
    (h : keysContains ks k = false) : keysGet ks k = none := by
  unfold keysContains at h
  cases hg : keysGet ks k with
  | none => rfl
  | some i => rw [hg] at h; simp at h

theorem keysGet_append_fresh {ks : List (PrimaryKey × Nat)} {k : PrimaryKey} (i : Nat)
    (h : keysGet ks k = none) : keysGet (ks ++ [(k, i)]) k = some i := by
  induction ks with
  | nil => simp [keysGet]
  | cons e ks ih =>
    obtain ⟨k₀, i₀⟩ := e
    simp only [keysGet] at h ⊢
    by_cases hk : k₀ = k
    · simp [hk] at h
    · simp only [if_neg hk] at h ⊢
      exact ih h

theorem keysRemove_append_self {ks : List (PrimaryKey × Nat)} {k : PrimaryKey} (i : Nat)
    (h : keysGet ks k = none) : keysRemove (ks ++ [(k, i)]) k = ks := by
  induction ks with
  | nil => simp [keysRemove]
  | cons e ks ih =>
    obtain ⟨k₀, i₀⟩ := e
    simp only [keysGet] at h
    by_cases hk : k₀ = k
    · simp [hk] at h
    · simp only [List.cons_append, keysRemove, if_neg hk]
      exact congrArg _ (ih (by simpa [if_neg hk] using h))

theorem lookupColumn_some_identifier {cols : List Column} {ident : String} {c : Column}
    (h : lookupColumn cols ident = some c) : c.identifier = ident := by
  induction cols with
  | nil => simp [lookupColumn] at h
  | cons c₀ cs ih =>
    simp only [lookupColumn] at h
    by_cases hc : c₀.identifier = ident
    · rw [if_pos hc] at h
      cases h
      exact hc
    · rw [if_neg hc] at h
      exact ih h

theorem lookupColumn_isSome_of_mem {cols : List Column} {c : Column} (h : c ∈ cols) :
    (lookupColumn cols c.identifier).isSome := by
  induction cols with
  | nil => cases h
  | cons c₀ cs ih =>
    simp only [lookupColumn]
    by_cases hc : c₀.identifier = c.identifier
    · simp [hc]
    · rcases List.mem_cons.mp h with rfl | hmem
      · exact absurd rfl hc
      · simpa [hc] using ih hmem

theorem lookupColumn_of_mem_nodup {cols : List Column} {c : Column} (h : c ∈ cols)
    (hnd : (cols.map Column.identifier).Nodup) :
    lookupColumn cols c.identifier = some c := by
  induction cols with
  | nil => cases h
  | cons c₀ cs ih =>
    simp only [List.map_cons, List.nodup_cons] at hnd
    rcases List.mem_cons.mp h with rfl | hmem
    · simp [lookupColumn]
    · have hne : c₀.identifier ≠ c.identifier := by
        intro he
        exact hnd.1 (he ▸ List.mem_map_of_mem Column.identifier hmem)
      simpa [lookupColumn, hne] using ih hmem hnd.2

theorem lookupColumn_updateColumn_self {cols : List Column} {ident : String}
    {c c' : Column} (h : lookupColumn cols ident = some c) (h' : c'.identifier = ident) :
    lookupColumn (updateColumn cols ident c') ident = some c' := by
  induction cols with
  | nil => simp [lookupColumn] at h
  | cons c₀ cs ih =>
    simp only [lookupColumn, updateColumn] at h ⊢
    by_cases hc : c₀.identifier = ident
    · simp [hc, lookupColumn, h']
    · rw [if_neg hc] at h
      simpa [hc, lookupColumn] using ih h

theorem lookupColumn_updateColumn_ne {cols : List Column} {ident j : String}
    {c' : Column} (h' : c'.identifier = ident) (hne : ident ≠ j) :
    lookupColumn (updateColumn cols ident c') j = lookupColumn cols j := by
  induction cols with
  | nil => simp [updateColumn]
  | cons c₀ cs ih =>
    simp only [updateColumn]
    by_cases hc : c₀.identifier = ident
    · have h₀ : c₀.identifier ≠ j := fun he => hne (hc ▸ he)
      have h₁ : c'.identifier ≠ j := fun he => hne (h' ▸ he)
      simp [lookupColumn, if_pos hc, h₀, h₁]
    · simp only [if_neg hc, lookupColumn]
      by_cases hj : c₀.identifier = j
      · simp [hj]
      · simpa [hj] using ih

theorem mapMeta_updateColumn {cols : List Column} {ident : String} {c c' : Column}
    (h : lookupColumn cols ident = some c) (hm : colMeta c' = colMeta c) :
    (updateColumn cols ident c').map colMeta = cols.map colMeta := by
  induction cols with
  | nil => simp [updateColumn]
  | cons c₀ cs ih =>
    simp only [lookupColumn, updateColumn] at h ⊢
    by_cases hc : c₀.identifier = ident
    · rw [if_pos hc] at h
      cases h
      simp [hc, hm]
    · rw [if_neg hc] at h
      simp [hc, ih h]

theorem set_cell_ok_shape {c c' : Column} {n : Nat} {x : Cell}
    (h : c.set_cell n x = Except.ok c') :
    c' = { c with values := listInsertAt c.values n x } ∧ x.data_type = c.data_type := by
  unfold Column.set_cell at h
  by_cases ht : c.data_type ≠ x.data_type
  · simp [if_pos ht] at h
  · rw [if_neg ht] at h
    by_cases hn : c.is_nullable = false ∧ x.inner = TableValue.null
    · simp [if_pos hn] at h
    · rw [if_neg hn] at h
      cases h
      exact ⟨rfl, (not_ne_iff.mp ht).symm⟩

theorem set_cell_ok_meta {c c' : Column} {n : Nat} {x : Cell}
    (h : c.set_cell n x = Except.ok c') : colMeta c' = colMeta c := by
  rw [(set_cell_ok_shape h).1]
  rfl

theorem set_cell_error_not_forbidden {c : Column} {n : Nat} {x : Cell}
    {e : VirtualTableError} (h : c.set_cell n x = Except.error e) :
    forbiddenVariant e = false := by
  unfold Column.set_cell at h
  by_cases ht : c.data_type ≠ x.data_type
  · rw [if_pos ht] at h
    cases h
    rfl
  · rw [if_neg ht] at h
    by_cases hn : c.is_nullable = false ∧ x.inner = TableValue.null
    · rw [if_pos hn] at h
      cases h
      rfl
    · simp [if_neg hn] at h

/-! ### Lemmas about row cell maps -/

theorem lookupAssoc_map_columns (cols : List Column) (f : Column → Option Cell)
    (ident : String) :
    lookupAssoc (cols.map (fun c => (c.identifier, f c))) ident =
      (lookupColumn cols ident).map f := by
  induction cols with
  | nil => rfl
  | cons c cs ih =>
    simp only [List.map_cons, lookupAssoc, lookupColumn]
    by_cases hc : c.identifier = ident
    · simp [hc]
    · simp [hc, ih]

theorem lookupAssoc_assocInsert (cells : List (String × Option Cell)) (k : String)
    (v : Option Cell) (ident : String) :
    lookupAssoc (assocInsert cells k v) ident =
      if k = ident then some v else lookupAssoc cells ident := by
  induction cells with
  | nil => rfl
  | cons e rest ih =>
    obtain ⟨k₀, w⟩ := e
    simp only [assocInsert]
    by_cases hk : k₀ = k
    · subst hk
      by_cases hi : k₀ = ident
      · simp [lookupAssoc, hi]
      · simp [lookupAssoc, hi]
    · simp only [if_neg hk, lookupAssoc]
      by_cases hi : k₀ = ident
      · have : ¬ k = ident := fun he => hk (hi.trans he.symm)
        simp [hi, this]
      · simp [hi, ih]

theorem lookupAssoc_mem {cells : List (String × Option Cell)} {ident : String}
    {v : Option Cell} (h : lookupAssoc cells ident = some v) : (ident, v) ∈ cells := by
  induction cells with
  | nil => simp [lookupAssoc] at h
  | cons e rest ih =>
    obtain ⟨k, w⟩ := e
    simp only [lookupAssoc] at h
    by_cases hk : k = ident
    · rw [if_pos hk] at h
      cases h
      exact hk ▸ List.mem_cons_self _ _
    · rw [if_neg hk] at h
      exact List.mem_cons_of_mem _ (ih h)

theorem mem_map_fst_assocInsert {cells : List (String × Option Cell)} {k j : String}
    {v : Option Cell} :
    j ∈ (assocInsert cells k v).map Prod.fst ↔ j ∈ cells.map Prod.fst ∨ j = k := by
  induction cells with
  | nil => simp [assocInsert]
  | cons e rest ih =>
    obtain ⟨k₀, w⟩ := e
    by_cases hk : k₀ = k
    · subst hk
      simp only [assocInsert, ite_true, List.map_cons, List.mem_cons]
      tauto
    · simp only [assocInsert, if_neg hk, List.map_cons, List.mem_cons, ih]
      tauto

theorem nodup_map_fst_assocInsert {cells : List (String × Option Cell)} {k : String}
    {v : Option Cell} (h : (cells.map Prod.fst).Nodup) :
    ((assocInsert cells k v).map Prod.fst).Nodup := by
  induction cells with
  | nil => simp [assocInsert]
  | cons e rest ih =>
    obtain ⟨k₀, w⟩ := e
    simp only [List.map_cons, List.nodup_cons] at h
    by_cases hk : k₀ = k
    · subst hk
      simp only [assocInsert, ite_true, List.map_cons, List.nodup_cons]
      exact h
    · simp only [assocInsert, if_neg hk, List.map_cons, List.nodup_cons]
      refine ⟨fun hmem => ?_, ih h.2⟩
      rcases mem_map_fst_assocInsert.mp hmem with hmem | heq
      · exact h.1 hmem
      · exact hk heq

theorem map_fst_rowCreate (t : Table) (pk : PrimaryKey) :
    (Row.create t pk).cells.map Prod.fst = t.columns.map Column.identifier := by
  simp [Row.create, List.map_map]

theorem buildRow_primary_key (t : Table) (pk : PrimaryKey) (sets : List (String × Cell)) :
    (buildRow t pk sets).primary_key = pk := by
  unfold buildRow
  suffices h : ∀ (l : List (String × Cell)) (r : Row),
      (l.foldl (fun r s => r.set_cell s.1 s.2) r).primary_key = r.primary_key by
    rw [h]
    rfl
  intro l
  induction l with
  | nil => intro r; rfl
  | cons s l ih => intro r; rw [List.foldl_cons, ih]; rfl

theorem nodup_map_fst_buildRow {t : Table} (pk : PrimaryKey) (sets : List (String × Cell))
    (h : (t.columns.map Column.identifier).Nodup) :
    ((buildRow t pk sets).cells.map Prod.fst).Nodup := by
  unfold buildRow
  suffices hgen : ∀ (l : List (String × Cell)) (r : Row), (r.cells.map Prod.fst).Nodup →
      ((l.foldl (fun r s => r.set_cell s.1 s.2) r).cells.map Prod.fst).Nodup by
    exact hgen sets _ (by rw [map_fst_rowCreate]; exact h)
  intro l
  induction l with
  | nil => intro r hr; exact hr
  | cons s l ih =>
    intro r hr
    rw [List.foldl_cons]
    exact ih _ (nodup_map_fst_assocInsert hr)

theorem lookupAssoc_buildRow_unset {t : Table} {pk : PrimaryKey}
    {sets : List (String × Cell)} {ident : String} (h : ∀ s ∈ sets, s.1 ≠ ident) :
    lookupAssoc (buildRow t pk sets).cells ident =
      lookupAssoc (Row.create t pk).cells ident := by
  unfold buildRow
  suffices hgen : ∀ (l : List (String × Cell)) (r : Row), (∀ s ∈ l, s.1 ≠ ident) →
      lookupAssoc ((l.foldl (fun r s => r.set_cell s.1 s.2) r).cells) ident =
        lookupAssoc r.cells ident by
    exact hgen sets _ h
  intro l
  induction l with
  | nil => intro r _; rfl
  | cons s l ih =>
    intro r hr
    rw [List.foldl_cons, ih _ (fun x hx => hr x (List.mem_cons_of_mem _ hx))]
    simp only [Row.set_cell, lookupAssoc_assocInsert]
    rw [if_neg (hr s (List.mem_cons_self _ _))]

theorem lookupAssoc_buildRow_isSome {t : Table} {pk : PrimaryKey}
    (sets : List (String × Cell)) {ident : String}
    (h : (lookupAssoc (Row.create t pk).cells ident).isSome) :
    (lookupAssoc (buildRow t pk sets).cells ident).isSome := by
  unfold buildRow
  suffices hgen : ∀ (l : List (String × Cell)) (r : Row),
      (lookupAssoc r.cells ident).isSome →
      (lookupAssoc ((l.foldl (fun r s => r.set_cell s.1 s.2) r).cells) ident).isSome by
    exact hgen sets _ h
  intro l
  induction l with
  | nil => intro r hr; exact hr
  | cons s l ih =>
    intro r hr
    rw [List.foldl_cons]
    refine ih _ ?_
    simp only [Row.set_cell, lookupAssoc_assocInsert]
    by_cases hk : s.1 = ident
    · simp [hk]
    · simpa [hk] using hr

/-! ### Structure of the per-entry folds of `create_row` and `update_row` -/

theorem createRowStep_unknown {cols : List Column} {ident : String}
    (errs : List VirtualTableError) (oc : Option Cell) (n : Nat)
    (hlu : lookupColumn cols ident = none) :
    createRowStep n (cols, errs) (ident, oc) =
      (cols, errs ++ [VirtualTableError.UnknownColumn ident]) := by
  simp only [createRowStep, hlu]

theorem createRowStep_err {cols : List Column} {ident : String} {col : Column}
    {er : VirtualTableError} (errs : List VirtualTableError) {oc : Option Cell} {n : Nat}
    (hlu : lookupColumn cols ident = some col)
    (hsc : col.set_cell n (cellOrNull col oc) = Except.error er) :
    createRowStep n (cols, errs) (ident, oc) = (cols, errs ++ [er]) := by
  simp only [createRowStep, hlu, hsc]

theorem createRowStep_ok {cols : List Column} {ident : String} {col col' : Column}
    (errs : List VirtualTableError) {oc : Option Cell} {n : Nat}
    (hlu : lookupColumn cols ident = some col)
    (hsc : col.set_cell n (cellOrNull col oc) = Except.ok col') :
    createRowStep n (cols, errs) (ident, oc) = (updateColumn cols ident col', errs) := by
  simp only [createRowStep, hlu, hsc]

theorem updateRowStep_skip {cols : List Column} {ident : String}
    (errs : List VirtualTableError) (i : Nat) :
    updateRowStep i (cols, errs) (ident, none) = (cols, errs) := rfl

theorem updateRowStep_unknown {cols : List Column} {ident : String}
    (errs : List VirtualTableError) (cell : Cell) (i : Nat)
    (hlu : lookupColumn cols ident = none) :
    updateRowStep i (cols, errs) (ident, some cell) =
      (cols, errs ++ [VirtualTableError.UnknownColumn ident]) := by
  simp only [updateRowStep, hlu]

theorem updateRowStep_err {cols : List Column} {ident : String} {col : Column}
    {er : VirtualTableError} (errs : List VirtualTableError) {cell : Cell} {i : Nat}
    (hlu : lookupColumn cols ident = some col)
    (hsc : col.set_cell i cell = Except.error er) :
    updateRowStep i (cols, errs) (ident, some cell) = (cols, errs ++ [er]) := by
  simp only [updateRowStep, hlu, hsc]

theorem updateRowStep_ok {cols : List Column} {ident : String} {col col' : Column}
    (errs : List VirtualTableError) {cell : Cell} {i : Nat}
    (hlu : lookupColumn cols ident = some col)
    (hsc : col.set_cell i cell = Except.ok col') :
    updateRowStep i (cols, errs) (ident, some cell) =
      (updateColumn cols ident col', errs) := by
  simp only [updateRowStep, hlu, hsc]

theorem createRowStep_split (n : Nat) (cols : List Column)
    (errs : List VirtualTableError) (entry : String × Option Cell) :
    createRowStep n (cols, errs) entry =
      ((createRowStep n (cols, []) entry).1,
        errs ++ (createRowStep n (cols, []) entry).2) := by
  obtain ⟨ident, oc⟩ := entry
  cases hlu : lookupColumn cols ident with
  | none =>
    rw [createRowStep_unknown errs oc n hlu, createRowStep_unknown [] oc n hlu]
    simp
  | some col =>
    cases hsc : col.set_cell n (cellOrNull col oc) with
    | error er =>
      rw [createRowStep_err errs hlu hsc, createRowStep_err [] hlu hsc]
      simp
    | ok col' =>
      rw [createRowStep_ok errs hlu hsc, createRowStep_ok [] hlu hsc]
      simp

theorem updateRowStep_split (i : Nat) (cols : List Column)
    (errs : List VirtualTableError) (entry : String × Option Cell) :
    updateRowStep i (cols, errs) entry =
      ((updateRowStep i (cols, []) entry).1,
        errs ++ (updateRowStep i (cols, []) entry).2) := by
  obtain ⟨ident, oc⟩ := entry
  cases oc with
  | none => simp [updateRowStep_skip]
  | some cell =>
    cases hlu : lookupColumn cols ident with
    | none =>
      rw [updateRowStep_unknown errs cell i hlu, updateRowStep_unknown [] cell i hlu]
      simp
    | some col =>
      cases hsc : col.set_cell i cell with
      | error er =>
        rw [updateRowStep_err errs hlu hsc, updateRowStep_err [] hlu hsc]
        simp
      | ok col' =>
        rw [updateRowStep_ok errs hlu hsc, updateRowStep_ok [] hlu hsc]
        simp

theorem createFold_split (n : Nat) (entries : List (String × Option Cell)) :
    ∀ (cols : List Column) (errs : List VirtualTableError),
    entries.foldl (createRowStep n) (cols, errs) =
      ((entries.foldl (createRowStep n) (cols, [])).1,
        errs ++ (entries.foldl (createRowStep n) (cols, [])).2) := by
  induction entries with
  | nil => intro cols errs; simp
  | cons e es ih =>
    intro cols errs
    rw [List.foldl_cons, List.foldl_cons, createRowStep_split n cols errs e]
    rcases hstep : createRowStep n (cols, []) e with ⟨cols₂, errs₂⟩
    rw [ih cols₂ (errs ++ errs₂), ih cols₂ errs₂]
    simp

theorem updateFold_split (i : Nat) (entries : List (String × Option Cell)) :
    ∀ (cols : List Column) (errs : List VirtualTableError),
    entries.foldl (updateRowStep i) (cols, errs) =
      ((entries.foldl (updateRowStep i) (cols, [])).1,
        errs ++ (entries.foldl (updateRowStep i) (cols, [])).2) := by
  induction entries with
  | nil => intro cols errs; simp
  | cons e es ih =>
    intro cols errs
    rw [List.foldl_cons, List.foldl_cons, updateRowStep_split i cols errs e]
    rcases hstep : updateRowStep i (cols, []) e with ⟨cols₂, errs₂⟩
    rw [ih cols₂ (errs ++ errs₂), ih cols₂ errs₂]
    simp

theorem createFold_mem_errs (n : Nat) {entries : List (String × Option Cell)}
    {cols : List Column} {errs : List VirtualTableError} {e : VirtualTableError}
    (h : e ∈ errs) : e ∈ (entries.foldl (createRowStep n) (cols, errs)).2 := by
  rw [createFold_split]
  exact List.mem_append_left _ h

theorem createFold_success_of (n : Nat) {entries : List (String × Option Cell)}
    {cols : List Column} {errs : List VirtualTableError}
    (h : (entries.foldl (createRowStep n) (cols, errs)).2 = errs) :
    (entries.foldl (createRowStep n) (cols, [])).2 = [] := by
  rw [createFold_split] at h
  simpa using h

theorem mapMeta_createFold (n : Nat) (entries : List (String × Option Cell)) :
    ∀ (cols : List Column) (errs : List VirtualTableError),
    ((entries.foldl (createRowStep n) (cols, errs)).1).map colMeta = cols.map colMeta := by
  induction entries with
  | nil => intro cols errs; rfl
  | cons e es ih =>
    intro cols errs
    obtain ⟨ident, oc⟩ := e
    rw [List.foldl_cons]
    cases hlu : lookupColumn cols ident with
    | none => rw [createRowStep_unknown errs oc n hlu]; exact ih cols _
    | some col =>
      cases hsc : col.set_cell n (cellOrNull col oc) with
      | error er => rw [createRowStep_err errs hlu hsc]; exact ih cols _
      | ok col' =>
        rw [createRowStep_ok errs hlu hsc, ih _ _]
        exact mapMeta_updateColumn hlu (set_cell_ok_meta hsc)

theorem lookup_from_mapMeta {cols cols₀ : List Column} {ident : String} {c : Column}
    (hmeta : cols.map colMeta = cols₀.map colMeta)
    (h : lookupColumn cols₀ ident = some c) :
    ∃ c₂, lookupColumn cols ident = some c₂ ∧ colMeta c₂ = colMeta c := by
  induction cols₀ generalizing cols with
  | nil => simp [lookupColumn] at h
  | cons o os ih =>
    cases cols with
    | nil => simp at hmeta
    | cons c₂ cs =>
      simp only [List.map_cons, List.cons.injEq] at hmeta
      have hid : c₂.identifier = o.identifier := congrArg Prod.fst hmeta.1
      simp only [lookupColumn] at h ⊢
      by_cases ho : o.identifier = ident
      · rw [if_pos ho] at h
        cases h
        exact ⟨c₂, by rw [if_pos (hid.trans ho)], hmeta.1⟩
      · rw [if_neg ho] at h
        rw [if_neg (fun he => ho (hid ▸ he))]
        exact ih hmeta.2 h

theorem createFold_lookup_stable (n : Nat) {entries : List (String × Option Cell)}
    {ident : String} (h : ident ∉ entries.map Prod.fst) :
    ∀ (cols : List Column) (errs : List VirtualTableError),
    lookupColumn ((entries.foldl (createRowStep n) (cols, errs)).1) ident =
      lookupColumn cols ident := by
  induction entries with
  | nil => intro cols errs; rfl
  | cons e es ih =>
    intro cols errs
    simp only [List.map_cons, List.mem_cons] at h
    push_neg at h
    obtain ⟨hne, hrest⟩ := h
    obtain ⟨j, oc⟩ := e
    rw [List.foldl_cons]
    cases hlu : lookupColumn cols j with
    | none => rw [createRowStep_unknown errs oc n hlu]; exact ih hrest cols _
    | some col =>
      cases hsc : col.set_cell n (cellOrNull col oc) with
      | error er => rw [createRowStep_err errs hlu hsc]; exact ih hrest cols _
      | ok col' =>
        rw [createRowStep_ok errs hlu hsc, ih hrest _ _]
        have hcid : col'.identifier = j :=
          (congrArg (fun m => m.1) (set_cell_ok_meta hsc)).trans
            (lookupColumn_some_identifier hlu)
        exact lookupColumn_updateColumn_ne hcid (fun he => hne he.symm)

theorem updateFold_lookup_stable (i : Nat) {entries : List (String × Option Cell)}
    {ident : String} (h : ∀ e ∈ entries, e.1 = ident → e.2 = none) :
    ∀ (cols : List Column) (errs : List VirtualTableError),
    lookupColumn ((entries.foldl (updateRowStep i) (cols, errs)).1) ident =
      lookupColumn cols ident := by
  induction entries with
  | nil => intro cols errs; rfl
  | cons e es ih =>
    intro cols errs
    have hrest : ∀ e ∈ es, e.1 = ident → e.2 = none :=
      fun x hx => h x (List.mem_cons_of_mem _ hx)
    obtain ⟨j, oc⟩ := e
    rw [List.foldl_cons]
    cases oc with
    | none => rw [updateRowStep_skip errs i]; exact ih hrest cols errs
    | some cell =>
      have hne : j ≠ ident := by
        intro he
        have := h (j, some cell) (List.mem_cons_self _ _) he
        simp at this
      cases hlu : lookupColumn cols j with
      | none => rw [updateRowStep_unknown errs cell i hlu]; exact ih hrest cols _
      | some col =>
        cases hsc : col.set_cell i cell with
        | error er => rw [updateRowStep_err errs hlu hsc]; exact ih hrest cols _
        | ok col' =>
          rw [updateRowStep_ok errs hlu hsc, ih hrest _ _]
          have hcid : col'.identifier = j :=
            (congrArg (fun m => m.1) (set_cell_ok_meta hsc)).trans
              (lookupColumn_some_identifier hlu)
          exact lookupColumn_updateColumn_ne hcid hne

/-! ### Rollback of a failed `create_row` restores the table -/

theorem tracked_anti {n : Nat} {pending pending' : List String}
    (hsub : pending' ⊆ pending) {o c : Column} (h : tracked n pending o c) :
    tracked n pending' o c :=
  ⟨h.1, h.2.imp id (fun hw => ⟨hw.1, fun hm => hw.2 (hsub hm)⟩)⟩

theorem forall₂_tracked_refl (n : Nat) (pending : List String) (cols : List Column) :
    List.Forall₂ (tracked n pending) cols cols :=
  List.forall₂_same.mpr (fun _ _ => ⟨rfl, Or.inl rfl⟩)

theorem updateColumn_tracked {n : Nat} {j : String} {rest : List String}
    {col col' : Column} {cell : Cell} :
    ∀ {orig cols : List Column},
    List.Forall₂ (tracked n (j :: rest)) orig cols →
    j ∉ rest →
    lookupColumn cols j = some col →
    col.set_cell n cell = Except.ok col' →
    List.Forall₂ (tracked n rest) orig (updateColumn cols j col') := by
  intro orig cols hf
  induction hf with
  | nil => intro _ hlu _; simp [lookupColumn] at hlu
  | @cons o c os cs h₁ h₂ ih =>
    intro hj hlu hsc
    have hid : c.identifier = o.identifier := congrArg Prod.fst h₁.1
    simp only [lookupColumn, updateColumn] at hlu ⊢
    by_cases hc : c.identifier = j
    · rw [if_pos hc] at hlu
      obtain rfl : c = col := by injection hlu
      rw [if_pos hc]
      have hoid : o.identifier = j := hid ▸ hc
      have hco : c = o := by
        rcases h₁.2 with hco | hw
        · exact hco
        · exact absurd (by rw [hoid]; exact List.mem_cons_self j rest) hw.2
      refine List.Forall₂.cons ⟨?_, Or.inr ⟨⟨cell, ?_⟩, ?_⟩⟩
        (h₂.imp (fun _ _ h => tracked_anti (fun _ hx => List.mem_cons_of_mem _ hx) h))
      · exact (set_cell_ok_meta hsc).trans h₁.1
      · simp only [(set_cell_ok_shape hsc).1]
        rw [hco]
      · rw [hoid]
        exact hj
    · rw [if_neg hc] at hlu
      rw [if_neg hc]
      exact List.Forall₂.cons (tracked_anti (fun _ hx => List.mem_cons_of_mem _ hx) h₁)
        (ih hj hlu hsc)

theorem createFold_tracked (n : Nat) :
    ∀ (entries : List (String × Option Cell)) (orig cols : List Column)
      (errs : List VirtualTableError),
    (entries.map Prod.fst).Nodup →
    List.Forall₂ (tracked n (entries.map Prod.fst)) orig cols →
    List.Forall₂ (tracked n []) orig ((entries.foldl (createRowStep n) (cols, errs)).1) := by
  intro entries
  induction entries with
  | nil => intro orig cols errs _ hf; exact hf
  | cons e es ih =>
    intro orig cols errs hnd hf
    obtain ⟨j, oc⟩ := e
    simp only [List.map_cons, List.nodup_cons] at hnd
    rw [List.foldl_cons]
    cases hlu : lookupColumn cols j with
    | none =>
      rw [createRowStep_unknown errs oc n hlu]
      exact ih orig cols _ hnd.2 (hf.imp (fun _ _ h => tracked_anti (fun _ hx => List.mem_cons_of_mem _ hx) h))
    | some col =>
      cases hsc : col.set_cell n (cellOrNull col oc) with
      | error er =>
        rw [createRowStep_err errs hlu hsc]
        exact ih orig cols _ hnd.2 (hf.imp (fun _ _ h => tracked_anti (fun _ hx => List.mem_cons_of_mem _ hx) h))
      | ok col' =>
        rw [createRowStep_ok errs hlu hsc]
        exact ih orig _ _ hnd.2 (updateColumn_tracked hf hnd.1 hlu hsc)

theorem destroyForRollback_tracked {n : Nat} {o c : Column}
    (h : tracked n [] o c) (hlen : o.values.length = n) :
    destroyForRollback n c = o := by
  obtain ⟨hmeta, hdisj⟩ := h
  rcases hdisj with rfl | ⟨⟨x, hx⟩, _⟩
  · simp [destroyForRollback, Column.destroy_cell, hlen]
  · have hx' : c.values = o.values ++ [x] := by
      rw [hx, ← hlen, listInsertAt_eq_append]
    have hlt : n < c.values.length := by
      rw [hx']
      simp [hlen]
    have herase : listEraseAt c.values n = o.values := by
      rw [hx', ← hlen, listEraseAt_append]
    obtain ⟨ci, cd, cn, cv⟩ := c
    obtain ⟨oi, od, on', ov⟩ := o
    simp only [colMeta, Prod.mk.injEq] at hmeta
    simp only [destroyForRollback, Column.destroy_cell, dif_pos hlt]
    simp_all

theorem forall₂_destroy_map {n : Nat} :
    ∀ {orig cols : List Column}, List.Forall₂ (tracked n []) orig cols →
    (∀ o ∈ orig, o.values.length = n) →
    cols.map (destroyForRollback n) = orig := by
  intro orig cols hf
  induction hf with
  | nil => intro _; rfl
  | @cons o c os cs h₁ h₂ ih =>
    intro hlen
    simp only [List.map_cons]
    rw [destroyForRollback_tracked h₁ (hlen o (List.mem_cons_self _ _)),
      ih (fun x hx => hlen x (List.mem_cons_of_mem _ hx))]

/-- Supporting lemma delimiting the C4 defect: on an *aligned* table (every
column's length equals the number of keys, which is the reserved index) and a
row whose cell map has the key uniqueness of a `HashMap`, a failed `create_row`
does restore the entire table — column contents, lengths, and key index — to
its pre-call state. The unconditional claim fails only on the misaligned
states made reachable by the `update_row` insert bug (see the C4 theorem). -/
theorem create_row_error_rollback_of_aligned (t : Table) (row : Row)
    (halign : ∀ col ∈ t.columns, col.values.length = t.keys.length)
    (hnd : (row.cells.map Prod.fst).Nodup)
    (herr : (t.create_row row).2 ≠ []) :
    (t.create_row row).1 = t := by
  unfold Table.create_row at herr ⊢
  cases hdup : keysContains t.keys row.primary_key with
  | true => simp [hdup]
  | false =>
    simp only [hdup, Bool.false_eq_true, if_false] at herr ⊢
    set res := row.cells.foldl (createRowStep t.keys.length) (t.columns, []) with hres
    unfold createRowFinish at herr ⊢
    by_cases hres2 : res.2 = []
    · rw [if_pos hres2] at herr
      exact absurd rfl herr
    · rw [if_neg hres2]
      have htracked : List.Forall₂ (tracked t.keys.length []) t.columns res.1 := by
        rw [hres]
        exact createFold_tracked t.keys.length row.cells t.columns t.columns [] hnd
          (forall₂_tracked_refl _ _ _)
      have hcols : res.1.map (destroyForRollback t.keys.length) = t.columns :=
        forall₂_destroy_map htracked halign
      have hkeys : keysRemove (t.keys ++ [(row.primary_key, t.keys.length)]) row.primary_key
          = t.keys :=
        keysRemove_append_self _ (keysGet_eq_none_of_not_contains hdup)
      simp only [Table.rollback_at_index]
      rw [hcols, hkeys]

/-- Concrete instance of the aligned-state rollback lemma: the failing create
attempt `badCreateRow` on the empty demo table is rolled back exactly. -/
theorem create_row_error_rollback_of_aligned_instance :
    (∀ col ∈ demoTable.columns, col.values.length = demoTable.keys.length) ∧
    ((badCreateRow.cells.map Prod.fst).Nodup) ∧
    (demoTable.create_row badCreateRow).2 ≠ [] ∧
    (demoTable.create_row badCreateRow).1 = demoTable :=
  ⟨by decide, by decide, by decide,
    create_row_error_rollback_of_aligned demoTable badCreateRow
      (by decide) (by decide) (by decide)⟩

/-- C4: a failed `create_row` is not always rolled back to the pre-call state.
On the reachable misaligned table left by the successful partial update (the C1
state: column lengths 2, 2, 1, 1 with a single key at position 0), a create
attempt with the fresh key 2 that leaves the non-nullable columns unset fails
with `InvalidNullValue` errors, and the rollback destroys the *pre-existing*
`first_name` cell at the reserved index 1 — `destroy_cell`'s bounds check is
not a no-op for a column that never accepted a write but is longer than the
reserved index — so the post-call column lengths are 2, 1, 1, 1 and the
committed value `"first"` is lost, contradicting the claimed restoration. -/
theorem c4_failed_create_destroys_committed_cell :
    (demoUpdated.1.create_row (Row.create demoUpdated.1 2)).2 =
      [VirtualTableError.InvalidNullValue "first_name",
        VirtualTableError.InvalidNullValue "last_name"] ∧
    demoUpdated.1.columns.map (fun c => c.values.length) = [2, 2, 1, 1] ∧
    ((demoUpdated.1.create_row (Row.create demoUpdated.1 2)).1).columns.map
      (fun c => c.values.length) = [2, 1, 1, 1] ∧
    (lookupColumn demoUpdated.1.columns "first_name").map
      (fun c => c.values.map (fun x => x.inner)) =
      some [TableValue.string "changed first name", TableValue.string "first"] ∧
    (lookupColumn ((demoUpdated.1.create_row (Row.create demoUpdated.1 2)).1).columns
      "first_name").map (fun c => c.values.map (fun x => x.inner)) =
      some [TableValue.string "changed first name"] :=
  ⟨rfl, rfl, rfl, rfl, rfl⟩

/-! ### The success path of `create_row`: every entry's column gets its write -/

theorem createFold_success_written (n : Nat) :
    ∀ (entries : List (String × Option Cell)) (cols : List Column),
    (entries.map Prod.fst).Nodup →
    (entries.foldl (createRowStep n) (cols, [])).2 = [] →
    ∀ (ident : String) (oc : Option Cell), (ident, oc) ∈ entries →
    ∀ col, lookupColumn cols ident = some col →
    col.set_cell n (cellOrNull col oc) =
      Except.ok { col with values := listInsertAt col.values n (cellOrNull col oc) } ∧
    lookupColumn ((entries.foldl (createRowStep n) (cols, [])).1) ident =
      some { col with values := listInsertAt col.values n (cellOrNull col oc) } := by
  intro entries
  induction entries with
  | nil => intro cols _ _ ident oc hmem; cases hmem
  | cons e es ih =>
    intro cols hnd hsucc ident oc hmem col hlu
    obtain ⟨j, oc₀⟩ := e
    simp only [List.map_cons, List.nodup_cons] at hnd
    rw [List.foldl_cons] at hsucc ⊢
    cases hlu₀ : lookupColumn cols j with
    | none =>
      rw [createRowStep_unknown [] oc₀ n hlu₀, createFold_split] at hsucc
      simp at hsucc
    | some colj =>
      cases hsc : colj.set_cell n (cellOrNull colj oc₀) with
      | error er =>
        rw [createRowStep_err [] hlu₀ hsc, createFold_split] at hsucc
        simp at hsucc
      | ok colj' =>
        rw [createRowStep_ok [] hlu₀ hsc] at hsucc ⊢
        rcases List.mem_cons.mp hmem with heq | hmem'
        · cases heq
          obtain rfl : colj = col := by
            rw [hlu₀] at hlu
            injection hlu
          have hshape := set_cell_ok_shape hsc
          have hcid : colj'.identifier = ident :=
            (congrArg (fun m => m.1) (set_cell_ok_meta hsc)).trans
              (lookupColumn_some_identifier hlu₀)
          refine ⟨by rw [hsc, hshape.1], ?_⟩
          rw [createFold_lookup_stable n hnd.1 _ [], ← hshape.1]
          exact lookupColumn_updateColumn_self hlu₀ hcid
        · have hidmem : ident ∈ es.map Prod.fst :=
            List.mem_map_of_mem Prod.fst hmem'
          have hji : j ≠ ident := fun he => hnd.1 (he ▸ hidmem)
          have hcid : colj'.identifier = j :=
            (congrArg (fun m => m.1) (set_cell_ok_meta hsc)).trans
              (lookupColumn_some_identifier hlu₀)
          have hlu₂ : lookupColumn (updateColumn cols j colj') ident = some col := by
            rw [lookupColumn_updateColumn_ne hcid hji]
            exact hlu
          exact ih (updateColumn cols j colj') hnd.2 hsucc ident oc hmem' col hlu₂

theorem buildRow_covers (t : Table) (pk : PrimaryKey) (sets : List (String × Cell)) :
    ∀ col ∈ t.columns,
    ∃ oc, lookupAssoc (buildRow t pk sets).cells col.identifier = some oc := by
  intro col hmem
  have hbase : (lookupAssoc (Row.create t pk).cells col.identifier).isSome := by
    show (lookupAssoc (t.columns.map fun c =>
      (c.identifier, if c.identifier = "ID"
        then some { data_type := c.data_type, inner := TableValue.uuid pk }
        else none)) col.identifier).isSome
    rw [lookupAssoc_map_columns]
    have := lookupColumn_isSome_of_mem hmem
    cases h : lookupColumn t.columns col.identifier with
    | none => rw [h] at this; simp at this
    | some c => simp
  exact Option.isSome_iff_exists.mp (lookupAssoc_buildRow_isSome sets hbase)

/-- C5: during `create_row` of a row built via `Row::create` (the only `Row`
constructor) and `Row::set_cell` calls, every declared column of the table has
an entry in the row's cell map; the processing step for any entry whose
identifier resolves to a column is exactly a `set_cell` attempt at the reserved
index with a `None` entry substituted by a `Null` cell of the column's declared
type; and on a successful create every declared column's length has grown by
one, with unset columns holding `Null` at the reserved position — no declared
column is silently skipped. -/
theorem c5_every_column_attempted (t : Table) (pk : PrimaryKey)
    (sets : List (String × Cell))
    (hids : (t.columns.map Column.identifier).Nodup)
    (hfresh : keysContains t.keys pk = false)
    (halign : ∀ col ∈ t.columns, col.values.length = t.keys.length) :
    ∀ col ∈ t.columns,
    ∃ oc, lookupAssoc (buildRow t pk sets).cells col.identifier = some oc ∧
      (∀ (cols : List Column) (errs : List VirtualTableError) (col₀ : Column),
        lookupColumn cols col.identifier = some col₀ →
        createRowStep t.keys.length (cols, errs) (col.identifier, oc) =
          match col₀.set_cell t.keys.length (cellOrNull col₀ oc) with
          | Except.ok col' => (updateColumn cols col.identifier col', errs)
          | Except.error e => (cols, errs ++ [e])) ∧
      ((t.create_row (buildRow t pk sets)).2 = [] →
        ∃ col',
          lookupColumn ((t.create_row (buildRow t pk sets)).1).columns col.identifier
            = some col' ∧
          col'.values.length = col.values.length + 1 ∧
          (oc = none → col'.value_at t.keys.length = some TableValue.null)) := by
  intro col hmem
  obtain ⟨oc, hoc⟩ := buildRow_covers t pk sets col hmem
  refine ⟨oc, hoc, ?_, ?_⟩
  · intro cols errs col₀ hlu₀
    cases hsc : col₀.set_cell t.keys.length (cellOrNull col₀ oc) with
    | error er => rw [createRowStep_err errs hlu₀ hsc]
    | ok col' => rw [createRowStep_ok errs hlu₀ hsc]
  · intro hsucc
    unfold Table.create_row at hsucc ⊢
    rw [buildRow_primary_key] at hsucc ⊢
    rw [if_neg (by rw [hfresh]; exact Bool.false_ne_true)] at hsucc ⊢
    set res := (buildRow t pk sets).cells.foldl (createRowStep t.keys.length)
      (t.columns, []) with hres
    unfold createRowFinish at hsucc ⊢
    by_cases hres2 : res.2 = []
    · rw [if_pos hres2] at hsucc ⊢
      have hnd := nodup_map_fst_buildRow pk sets hids
      have hlu := lookupColumn_of_mem_nodup hmem hids
      have hw := createFold_success_written t.keys.length (buildRow t pk sets).cells
        t.columns hnd (hres ▸ hres2) col.identifier oc (lookupAssoc_mem hoc) col hlu
      refine ⟨_, hw.2, ?_, ?_⟩
      · have hlen : col.values.length = t.keys.length := halign col hmem
        simp only [← hlen, listInsertAt_eq_append, List.length_append, List.length_cons,
          List.length_nil]
      · intro hnone
        subst hnone
        have hlen : col.values.length = t.keys.length := halign col hmem
        simp [Column.value_at, ← hlen, listInsertAt_eq_append, get?_append_length,
          cellOrNull]
    · rw [if_neg hres2] at hsucc
      exact absurd hsucc hres2

/-- Witness for C5: on the demo table with key 5 and `demoSets` (both string
columns set, `age` left unset), the `age` column has a `none` entry, its
processing step is a `set_cell` attempt, and after the successful create the
`age` column has grown by one and holds `Null` at the new position. -/
theorem c5_witness :
    ∃ oc, lookupAssoc (buildRow demoTable 5 demoSets).cells ageColumn.identifier
        = some oc ∧
      (∀ (cols : List Column) (errs : List VirtualTableError) (col₀ : Column),
        lookupColumn cols ageColumn.identifier = some col₀ →
        createRowStep demoTable.keys.length (cols, errs) (ageColumn.identifier, oc) =
          match col₀.set_cell demoTable.keys.length (cellOrNull col₀ oc) with
          | Except.ok col' => (updateColumn cols ageColumn.identifier col', errs)
          | Except.error e => (cols, errs ++ [e])) ∧
      ((demoTable.create_row (buildRow demoTable 5 demoSets)).2 = [] →
        ∃ col',
          lookupColumn ((demoTable.create_row (buildRow demoTable 5 demoSets)).1).columns
            ageColumn.identifier = some col' ∧
          col'.values.length = ageColumn.values.length + 1 ∧
          (oc = none →
            col'.value_at demoTable.keys.length = some TableValue.null)) :=
  c5_every_column_attempted demoTable 5 demoSets (by decide) (by decide) (by decide)
    ageColumn (by decide)

/-- C9: round-trip through the spec-modelled `find_row`. For a row built via
`Row::create` and `Row::set_cell` and successfully committed by `create_row`
under key `pk`, `find_row (pk, All)` succeeds and returns a row whose cell for
every declared column is exactly what was written: the entry's cell when one
was set, a `Null` cell of the column's declared type when the entry was unset. -/
theorem c9_round_trip (t : Table) (pk : PrimaryKey) (sets : List (String × Cell))
    (hids : (t.columns.map Column.identifier).Nodup)
    (hfresh : keysContains t.keys pk = false)
    (halign : ∀ col ∈ t.columns, col.values.length = t.keys.length)
    (hsucc : (t.create_row (buildRow t pk sets)).2 = []) :
    ∃ r', ((t.create_row (buildRow t pk sets)).1).find_row pk ColumnSpecification.All
        = Except.ok r' ∧
      r'.primary_key = pk ∧
      ∀ col ∈ t.columns, ∀ oc,
        lookupAssoc (buildRow t pk sets).cells col.identifier = some oc →
        lookupAssoc r'.cells col.identifier = some (some (cellOrNull col oc)) := by
  unfold Table.create_row at hsucc ⊢
  rw [buildRow_primary_key] at hsucc ⊢
  rw [if_neg (by rw [hfresh]; exact Bool.false_ne_true)] at hsucc ⊢
  set res := (buildRow t pk sets).cells.foldl (createRowStep t.keys.length)
    (t.columns, []) with hres
  unfold createRowFinish at hsucc ⊢
  by_cases hres2 : res.2 = []
  · rw [if_pos hres2] at hsucc ⊢
    have hget : keysGet (t.keys ++ [(pk, t.keys.length)]) pk = some t.keys.length :=
      keysGet_append_fresh _ (keysGet_eq_none_of_not_contains hfresh)
    refine ⟨Row.mk pk
      (res.1.map (fun c => (c.identifier, reconstructCell c t.keys.length))), ?_, rfl, ?_⟩
    · simp only [Table.find_row, hget]
    · intro col hmem oc hoc
      have hnd := nodup_map_fst_buildRow pk sets hids
      have hlu := lookupColumn_of_mem_nodup hmem hids
      have hw := createFold_success_written t.keys.length (buildRow t pk sets).cells
        t.columns hnd (hres ▸ hres2) col.identifier oc (lookupAssoc_mem hoc) col hlu
      show lookupAssoc (res.1.map fun c => (c.identifier, reconstructCell c t.keys.length))
        col.identifier = _
      rw [lookupAssoc_map_columns, hw.2]
      have hlen : col.values.length = t.keys.length := halign col hmem
      have hdt : (cellOrNull col oc).data_type = col.data_type :=
        (set_cell_ok_shape hw.1).2
      simp only [Option.map_some', reconstructCell, Column.value_at, ← hlen,
        listInsertAt_eq_append, get?_append_length, Option.some.injEq]
      rcases hcw : cellOrNull col oc with ⟨wd, wi⟩
      rw [hcw] at hdt
      simp_all
  · rw [if_neg hres2] at hsucc
    exact absurd hsucc hres2

/-- Witness for C9: the committed demo row round-trips through `find_row`;
instantiated at the unset nullable `age` column, whose read-back cell is the
substituted `Null` cell. -/
theorem c9_witness :
    ∃ r', ((demoTable.create_row (buildRow demoTable 5 demoSets)).1).find_row 5
        ColumnSpecification.All = Except.ok r' ∧
      r'.primary_key = 5 ∧
      ∀ col ∈ demoTable.columns, ∀ oc,
        lookupAssoc (buildRow demoTable 5 demoSets).cells col.identifier = some oc →
        lookupAssoc r'.cells col.identifier = some (some (cellOrNull col oc)) :=
  c9_round_trip demoTable 5 demoSets (by decide) (by decide) (by decide) (by decide)

/-! ### Omitting a non-nullable column fails with InvalidNullValue -/

theorem c6_missing_non_nullable (t : Table) (pk : PrimaryKey)
    (sets : List (String × Cell)) (ident : String) (col : Column)
    (hlu : lookupColumn t.columns ident = some col)
    (hnn : col.is_nullable = false)
    (hid : ident ≠ "ID")
    (hfresh : keysContains t.keys pk = false)
    (hunset : ∀ s ∈ sets, s.1 ≠ ident) :
    VirtualTableError.InvalidNullValue ident ∈ (t.create_row (buildRow t pk sets)).2 ∧
    keysContains ((t.create_row (buildRow t pk sets)).1).keys pk = false := by
  have hcolid : col.identifier = ident := lookupColumn_some_identifier hlu
  have hentry : lookupAssoc (buildRow t pk sets).cells ident = some none := by
    rw [lookupAssoc_buildRow_unset hunset]
    show lookupAssoc (t.columns.map fun c =>
      (c.identifier, if c.identifier = "ID"
        then some { data_type := c.data_type, inner := TableValue.uuid pk }
        else none)) ident = some none
    rw [lookupAssoc_map_columns, hlu]
    simp [hcolid, hid]
  obtain ⟨pre, post, hsplit⟩ := List.append_of_mem (lookupAssoc_mem hentry)
  have herrmem : VirtualTableError.InvalidNullValue ident ∈
      ((buildRow t pk sets).cells.foldl (createRowStep t.keys.length) (t.columns, [])).2 := by
    rw [hsplit, List.foldl_append, List.foldl_cons]
    rcases hA : pre.foldl (createRowStep t.keys.length) (t.columns, []) with ⟨cols₁, errs₁⟩
    have hmeta : cols₁.map colMeta = t.columns.map colMeta := by
      have := mapMeta_createFold t.keys.length pre t.columns []
      rw [hA] at this
      exact this
    obtain ⟨col₂, hlu₂, hm₂⟩ := lookup_from_mapMeta hmeta hlu
    have hid₂ : col₂.identifier = ident := lookupColumn_some_identifier hlu₂
    have hnul₂ : col₂.is_nullable = false :=
      (congrArg (fun m => m.2.2) hm₂).trans hnn
    have hsc : col₂.set_cell t.keys.length (cellOrNull col₂ none) =
        Except.error (VirtualTableError.InvalidNullValue ident) := by
      simp [Column.set_cell, cellOrNull, hnul₂, hid₂]
    rw [createRowStep_err errs₁ hlu₂ hsc]
    exact createFold_mem_errs _ (List.mem_append_right _ (List.mem_singleton.mpr rfl))
  unfold Table.create_row
  rw [buildRow_primary_key]
  rw [if_neg (by rw [hfresh]; exact Bool.false_ne_true)]
  unfold createRowFinish
  rw [if_neg (List.ne_nil_of_mem herrmem)]
  refine ⟨herrmem, ?_⟩
  show keysContains (keysRemove (t.keys ++ [(pk, t.keys.length)]) pk) pk = false
  rw [keysRemove_append_self _ (keysGet_eq_none_of_not_contains hfresh)]
  exact hfresh

/-- C6: creating a row that leaves the non-nullable non-ID column `first_name`
unset fails with `InvalidNullValue "first_name"`, and the key is absent from
the table afterwards. -/
theorem c6_witness :
    VirtualTableError.InvalidNullValue "first_name" ∈
      (demoTable.create_row (buildRow demoTable 5 ageSets)).2 ∧
    keysContains ((demoTable.create_row (buildRow demoTable 5 ageSets)).1).keys 5
      = false :=
  c6_missing_non_nullable demoTable 5 ageSets "first_name" firstNameColumn
    (by decide) (by decide) (by decide) (by decide) (by decide)

/-! ### Partial update leaves untouched columns unchanged -/

/-- C8: for a committed row at a key resolving to position `i`, a successful
`update_row` whose entries are `Some` only for columns other than `ident`
(every entry for `ident` is `None`) leaves `value_at` of column `ident` at
position `i` unchanged, and the key still resolves to `i`. -/
theorem c8_partial_update_preserves (t : Table) (urow : Row) (i : Nat) (ident : String)
    (hkey : keysGet t.keys urow.primary_key = some i)
    (hsucc : (t.update_row urow).2 = [])
    (hnone : ∀ e ∈ urow.cells, e.1 = ident → e.2 = none) :
    ((t.update_row urow).1).value_of ident i = t.value_of ident i ∧
    keysGet ((t.update_row urow).1).keys urow.primary_key = some i := by
  simp only [Table.update_row, hkey] at hsucc ⊢
  unfold updateRowFinish at hsucc ⊢
  by_cases hres2 : (urow.cells.foldl (updateRowStep i) (t.columns, [])).2 = []
  · rw [if_pos hres2]
    constructor
    · show Table.value_of _ ident i = t.value_of ident i
      unfold Table.value_of
      rw [show ({ t with
          columns := (urow.cells.foldl (updateRowStep i) (t.columns, [])).1 } : Table).columns =
        (urow.cells.foldl (updateRowStep i) (t.columns, [])).1 from rfl]
      rw [updateFold_lookup_stable i hnone t.columns []]
    · exact hkey
  · rw [if_neg hres2] at hsucc
    exact absurd hsucc hres2

/-- Witness for C8: updating only `age` on the committed demo row leaves
`first_name` at its prior value and the key still at position 0. -/
theorem c8_witness :
    ((demoTable1.update_row ageUpdateRow).1).value_of "first_name" 0 =
      demoTable1.value_of "first_name" 0 ∧
    keysGet ((demoTable1.update_row ageUpdateRow).1).keys ageUpdateRow.primary_key
      = some 0 :=
  c8_partial_update_preserves demoTable1 ageUpdateRow 0 "first_name"
    (by decide) (by decide) (by decide)

/-! ### No DuplicateColumnInRow or InvalidRowIndex ever surfaces -/

theorem createFold_errs_not_forbidden (n : Nat) :
    ∀ (entries : List (String × Option Cell)) (cols : List Column)
      (errs : List VirtualTableError),
    (∀ e ∈ errs, forbiddenVariant e = false) →
    ∀ e ∈ (entries.foldl (createRowStep n) (cols, errs)).2, forbiddenVariant e = false := by
  intro entries
  induction entries with
  | nil => intro cols errs h; exact h
  | cons entry es ih =>
    intro cols errs h
    obtain ⟨j, oc⟩ := entry
    rw [List.foldl_cons]
    cases hlu : lookupColumn cols j with
    | none =>
      rw [createRowStep_unknown errs oc n hlu]
      refine ih cols _ (fun e he => ?_)
      rcases List.mem_append.mp he with he | he
      · exact h e he
      · rw [List.mem_singleton.mp he]
        rfl
    | some col =>
      cases hsc : col.set_cell n (cellOrNull col oc) with
      | error er =>
        rw [createRowStep_err errs hlu hsc]
        refine ih cols _ (fun e he => ?_)
        rcases List.mem_append.mp he with he | he
        · exact h e he
        · rw [List.mem_singleton.mp he]
          exact set_cell_error_not_forbidden hsc
      | ok col' =>
        rw [createRowStep_ok errs hlu hsc]
        exact ih _ errs h

theorem updateFold_errs_not_forbidden (i : Nat) :
    ∀ (entries : List (String × Option Cell)) (cols : List Column)
      (errs : List VirtualTableError),
    (∀ e ∈ errs, forbiddenVariant e = false) →
    ∀ e ∈ (entries.foldl (updateRowStep i) (cols, errs)).2, forbiddenVariant e = false := by
  intro entries
  induction entries with
  | nil => intro cols errs h; exact h
  | cons entry es ih =>
    intro cols errs h
    obtain ⟨j, oc⟩ := entry
    rw [List.foldl_cons]
    cases oc with
    | none =>
      rw [updateRowStep_skip errs i]
      exact ih cols errs h
    | some cell =>
      cases hlu : lookupColumn cols j with
      | none =>
        rw [updateRowStep_unknown errs cell i hlu]
        refine ih cols _ (fun e he => ?_)
        rcases List.mem_append.mp he with he | he
        · exact h e he
        · rw [List.mem_singleton.mp he]
          rfl
      | some col =>
        cases hsc : col.set_cell i cell with
        | error er =>
          rw [updateRowStep_err errs hlu hsc]
          refine ih cols _ (fun e he => ?_)
          rcases List.mem_append.mp he with he | he
          · exact h e he
          · rw [List.mem_singleton.mp he]
            exact set_cell_error_not_forbidden hsc
        | ok col' =>
          rw [updateRowStep_ok errs hlu hsc]
          exact ih _ errs h

/-- C10: for every table and row, the error collections returned by
`create_row` and `update_row` never contain the `DuplicateColumnInRow` or
`InvalidRowIndex` variants: the per-entry loops only emit
`DuplicatePrimaryKey`/`UnknownPrimaryKey`, `UnknownColumn`, and `set_cell`'s
`InvalidDataType`/`InvalidNullValue`, and rollback discards `destroy_cell`'s
`InvalidRowIndex` results instead of surfacing them. -/
theorem c10_no_internal_error_variants (t : Table) (row : Row) :
    (∀ e ∈ (t.create_row row).2, forbiddenVariant e = false) ∧
    (∀ e ∈ (t.update_row row).2, forbiddenVariant e = false) := by
  constructor
  · unfold Table.create_row
    cases hdup : keysContains t.keys row.primary_key with
    | true =>
      simp only [hdup, if_true]
      intro e he
      rw [List.mem_singleton.mp he]
      rfl
    | false =>
      simp only [hdup, Bool.false_eq_true, if_false]
      unfold createRowFinish
      by_cases hres2 :
        (row.cells.foldl (createRowStep t.keys.length) (t.columns, [])).2 = []
      · rw [if_pos hres2]
        intro e he
        cases he
      · rw [if_neg hres2]
        exact createFold_errs_not_forbidden t.keys.length row.cells t.columns []
          (fun e he => by cases he)
  · unfold Table.update_row
    cases hget : keysGet t.keys row.primary_key with
    | none =>
      intro e he
      rw [List.mem_singleton.mp he]
      rfl
    | some i =>
      simp only
      unfold updateRowFinish
      by_cases hres2 : (row.cells.foldl (updateRowStep i) (t.columns, [])).2 = []
      · rw [if_pos hres2]
        intro e he
        cases he
      · rw [if_neg hres2]
        exact updateFold_errs_not_forbidden i row.cells t.columns []
          (fun e he => by cases he)

/-- Witness for C10: a concrete error surfaced by `create_row` on the demo
table (an `InvalidNullValue`) is not one of the two internal variants. -/
theorem c10_witness :
    forbiddenVariant (VirtualTableError.InvalidNullValue "first_name") = false :=
  (c10_no_internal_error_variants demoTable (Row.create demoTable 7)).1
    (VirtualTableError.InvalidNullValue "first_name") (by decide)

/-! ### The corrected null/type-check contract of `set_cell` -/

/-- C7 (amended): `set_cell` accepts a `Null` cell into a nullable column
exactly when the cell's declared data type equals the column's declared type;
the data-type check runs first, so matching type plus nullable column plus
`Null` value is accepted. -/
theorem c7_amended_null_accepted (c : Column) (i : Nat) (cell : Cell)
    (hn : c.is_nullable = true) (_hv : cell.inner = TableValue.null)
    (ht : cell.data_type = c.data_type) :
    c.set_cell i cell = Except.ok { c with values := listInsertAt c.values i cell } := by
  simp [Column.set_cell, ht, hn]

/-- Witness for the amended C7: a `Null` Integer cell is accepted by the
nullable Integer `age` column. -/
theorem c7_amended_witness :
    ageColumn.set_cell 0 (Cell.mk DataType.integer TableValue.null) =
      Except.ok { ageColumn with
        values := listInsertAt ageColumn.values 0 (Cell.mk DataType.integer TableValue.null) } :=
  c7_amended_null_accepted ageColumn 0 (Cell.mk DataType.integer TableValue.null)
    rfl rfl rfl

end VirtualTable
